import Mathlib

/-!
Shallow embedding of the sqlair SQL preprocessor (github.com/SimonRichardson/sqlair)
and proofs about its statement compiler, named-parameter scanner, record-path
parser, reflection layer and scan planner.

Conventions used throughout:
* Go strings are modelled as Lean `String`/`List Char`; the statements under
  study are ASCII, so byte indexing coincides with character indexing.
* The Go `unicode` class predicates are modelled on their ASCII fragment
  (the repository only feeds ASCII SQL text through them).
* Fallible Go functions returning `(T, error)` become `Except String T`;
  functions that can additionally panic return `Outcome T`.
* Go maps are modelled as association lists with replace-or-append insertion;
  wherever the Go code ranges over a map and then sorts the collected names,
  the iteration order is irrelevant and the insertion order is used.
* `sort.Slice` / `sort.Strings` produce a sorted permutation; they are modelled
  with `List.insertionSort`, which agrees with them on every list whose keys
  are pairwise distinct (all inputs considered here) and is sorted in general.
-/

namespace SQLair

/-- ASCII fragment of Go `unicode.IsSpace`. -/
def isSpaceGo (c : Char) : Bool :=
  c = ' ' || c = '\t' || c = '\n' || c = '\x0b' || c = '\x0c' || c = '\r'

/-- ASCII fragment of Go `unicode.IsLetter`. -/
def isLetterGo (c : Char) : Bool :=
  c.isAlpha

/-- ASCII fragment of Go `unicode.IsDigit` (and of `unicode.IsNumber`). -/
def isDigitGo (c : Char) : Bool :=
  c.isDigit

/-- `alphaNumeric` from sqlair.go: letters, digits and underscore. -/
def alphaNumeric (c : Char) : Bool :=
  isLetterGo c || isDigitGo c || c = '_'

/-- `numeric` from sqlair.go: digits only. -/
def numeric (c : Char) : Bool :=
  isDigitGo c

/-- `nameBinding` from sqlair.go: a named-argument prefix rune and name. -/
structure NameBinding where
  pfx : Char
  name : String
  deriving DecidableEq, Repr

/-- The `prefixes` map from sqlair.go: the per-prefix name-character predicate. -/
def prefixPredicate (c : Char) : Option (Char → Bool) :=
  if c = ':' then some alphaNumeric
  else if c = '@' then some alphaNumeric
  else if c = '$' then some alphaNumeric
  else if c = '?' then some numeric
  else none

/-- Whether a rune is one of the named-argument prefixes. -/
def isBindPrefixChar (c : Char) : Bool :=
  (prefixPredicate c).isSome

/-- `isNameTerminator` from sqlair.go. -/
def isNameTerminator (c : Char) : Bool :=
  isSpaceGo c || c = ',' || c = ';' || c = '=' || c = ')'

/-- Go `strings.ToLower` on its ASCII fragment, implemented over the
character list so that it evaluates by kernel reduction. -/
def toLowerGo (s : String) : String :=
  String.mk (s.toList.map Char.toLower)

/-- Go `strings.TrimSpace` on its ASCII fragment. -/
def trimGo (s : String) : String :=
  String.mk (((s.toList.dropWhile isSpaceGo).reverse.dropWhile isSpaceGo).reverse)

/-- `indexOfInputNamedArgs` from sqlair.go.  The Go code takes the minimum
`strings.IndexRune` over the four prefixes, i.e. the first position holding a
prefix rune; `none` models the Go return value `-1`. -/
def indexOfInputNamedArgs (s : List Char) : Option Nat :=
  s.findIdx? isBindPrefixChar

/-- The inner rune-consuming loop of `parseNames` (sqlair.go lines 625-636):
consume runes satisfying `pred` starting at index `i`, stopping at a name
terminator (returning the collected name and the index of the terminator, or
the length of the statement), and failing on any other rune.  The fuel is
always at least `stmt.length + 1 - i`, which makes the 0 case unreachable. -/
def consumeName (stmt : List Char) (pred : Char → Bool) :
    Nat → Nat → Except String (List Char × Nat)
  | 0, _ => .error "fuel exhausted"
  | fuel + 1, i =>
    if _h : i < stmt.length then
      let c := stmt.getD i '\x00'
      if pred c then
        match consumeName stmt pred fuel (i + 1) with
        | .error e => .error e
        | .ok (name, j) => .ok (c :: name, j)
      else if isNameTerminator c then
        .ok ([], i)
      else
        .error "unexpected named argument found in statement"
    else
      .ok ([], i)

/-- The outer scanning loop of `parseNames` (sqlair.go lines 614-657).
`i` is the current index; bindings are collected in statement order.  The
fuel is always at least `stmt.length + 1 - i`; the index moves strictly
forward on every recursive call, so the 0 case is unreachable. -/
def parseNamesLoop (stmt : List Char) :
    Nat → Nat → Except String (List NameBinding)
  | 0, _ => .error "fuel exhausted"
  | fuel + 1, i =>
    if _h : i < stmt.length then
      let r := stmt.getD i '\x00'
      match prefixPredicate r with
      | none => parseNamesLoop stmt fuel (i + 1)
      | some pred =>
        -- Special case: a bare positional '?' followed by a terminator rune.
        if r = '?' && decide (i + 1 < stmt.length)
            && isNameTerminator (stmt.getD (i + 1) '\x00') then
          parseNamesLoop stmt fuel (i + 1)
        else
          match consumeName stmt pred fuel (i + 1) with
          | .error e => .error e
          | .ok (name, j) =>
            let binding : NameBinding := ⟨r, String.mk name⟩
            if j ≥ stmt.length then
              .ok [binding]
            else
              match indexOfInputNamedArgs (stmt.drop j) with
              | none => .ok [binding]
              | some idx =>
                -- Go: i += (index - 1) and then the loop increment i++.
                match parseNamesLoop stmt fuel (j + idx) with
                | .error e => .error e
                | .ok rest => .ok (binding :: rest)
    else
      .ok []

/-- Byte-lexicographic string comparison, as used by Go `<` / `sort` on
strings (ASCII text, so bytes and characters coincide). -/
def strLe : List Char → List Char → Bool
  | [], _ => true
  | _ :: _, [] => false
  | a :: as, b :: bs => if a = b then strLe as bs else decide (a < b)

/-- Ordered insertion used to model Go's `sort` package: insert `a` before the
first element it compares `le` to. -/
def orderedInsertGo {α : Type} (le : α → α → Bool) (a : α) : List α → List α
  | [] => [a]
  | b :: l => if le a b then a :: b :: l else b :: orderedInsertGo le a l

/-- Insertion sort modelling Go's `sort.Slice`/`sort.Strings`: both produce a
permutation sorted under `le`; they agree exactly whenever the keys are
pairwise distinct (which holds for every sort performed here). -/
def insertionSortGo {α : Type} (le : α → α → Bool) : List α → List α
  | [] => []
  | b :: l => orderedInsertGo le b (insertionSortGo le l)

/-- Comparison used by the `sort.Slice` call in `parseNames`: lexicographic
by binding name. -/
def nameLe (a b : NameBinding) : Bool :=
  strLe a.name.toList b.name.toList

/-- `parseNames` from sqlair.go: scan the statement from `offset` and return
the name bindings sorted lexicographically by name. -/
def parseNames (stmt : String) (offset : Nat) : Except String (List NameBinding) :=
  match parseNamesLoop stmt.toList (stmt.length + 1) offset with
  | .error e => .error e
  | .ok names => .ok (insertionSortGo nameLe names)

/-- `AliasPrefix` from sqlair.go. -/
def aliasPfx : String := "_pfx_"

/-- `AliasSeparator` from sqlair.go. -/
def aliasSep : String := "_sfx_"

/-- Fuelled worker for `goSplit`.  Every recursive call shortens the subject
list by at least one character, so fuel `s.length` always suffices and the
fuel-exhaustion case is unreachable. -/
def goSplitF (sep : List Char) : Nat → List Char → List (List Char)
  | _, [] => [[]]
  | 0, s => [s]
  | fuel + 1, c :: rest =>
    if sep.isPrefixOf (c :: rest) then
      [] :: goSplitF sep fuel ((c :: rest).drop (max sep.length 1))
    else
      match goSplitF sep fuel rest with
      | [] => [[c]]
      | h :: t => (c :: h) :: t

/-- Go `strings.Split(s, sep)` for a non-empty separator: split around every
non-overlapping occurrence of `sep`, left to right.  (For the degenerate empty
separator, never used by the code, the `max 1` keeps the recursion total.) -/
def goSplit (sep s : List Char) : List (List Char) :=
  goSplitF sep s.length s

/-- `ReflectTag` from reflect/reflect.go. -/
structure ReflectTag where
  name : String
  omitEmpty : Bool
  deriving DecidableEq, Repr

/-- `parseTag` from reflect/reflect.go.  Note the Go `switch len(options)`:
two options require the second to be `omitempty` and fall through to set the
name; one option sets the name; any other count leaves the zero tag and
reports no error. -/
def parseTag (tag : String) : Except String ReflectTag :=
  if tag = "" then .error "unexpected empty tag"
  else
    let options := (goSplit [','] tag.toList).map String.mk
    match options with
    | [name] => .ok ⟨name, false⟩
    | [name, opt] =>
      if toLowerGo opt ≠ "omitempty" then .error ("unexpected tag value " ++ opt)
      else .ok ⟨name, true⟩
    | _ => .ok ⟨"", false⟩

/-- `ReflectField` from reflect/reflect.go.  The Go struct also carries the
addressable `reflect.Value` of the field, which only matters to the driver at
scan time and is not modelled. -/
structure ReflectField where
  fieldName : String
  tag : ReflectTag
  deriving DecidableEq, Repr

/-- `ReflectStruct` from reflect/reflect.go, with the `Fields` map modelled as
an association list keyed by column name. -/
structure ReflectStruct where
  name : String
  fields : List (String × ReflectField)
  deriving DecidableEq, Repr

/-- `FieldNames` from reflect/reflect.go: the sorted field keys. -/
def ReflectStruct.fieldNames (r : ReflectStruct) : List String :=
  insertionSortGo (fun a b => strLe a.toList b.toList) (r.fields.map (·.1))

/-- The reflection kinds the code distinguishes (`reflect.Kind`). -/
inductive GoKind where
  | struct | map | slice | int | string | bool | ptr
  deriving DecidableEq, Repr

/-- A struct field declaration: field name plus the raw `db` tag.  `none`
models an absent tag; Go's `StructTag.Get` collapses it to `""`. -/
structure GoFieldDecl where
  fieldName : String
  dbTag : Option String
  deriving DecidableEq, Repr

/-- The fragment of Go's type universe the destinations range over. -/
inductive GoType where
  | ptr (elem : GoType)
  | structT (name : String) (fields : List GoFieldDecl)
  | mapT
  | sliceT (elem : GoType)
  | intT
  | stringT
  | boolT
  deriving DecidableEq, Repr

/-- The `reflect.Kind` of a type. -/
def GoType.kind : GoType → GoKind
  | .ptr _ => .ptr
  | .structT _ _ => .struct
  | .mapT => .map
  | .sliceT _ => .slice
  | .intT => .int
  | .stringT => .string
  | .boolT => .bool

/-- `reflect.Indirect`: dereference one pointer level. -/
def GoType.indirect : GoType → GoType
  | .ptr t => t
  | t => t

/-- `ReflectInfo` from reflect/reflect.go: either a plain value
(`ReflectValue`, which carries its `reflect.Value` — modelled by its type) or
a reflected struct. -/
inductive ReflectInfo where
  | value (t : GoType)
  | structI (s : ReflectStruct)
  deriving DecidableEq, Repr

/-- `Kind()` of a `ReflectInfo`. -/
def ReflectInfo.kind : ReflectInfo → GoKind
  | .value t => t.kind
  | .structI _ => .struct

/-- Go map assignment `m[k] = v` on the association-list model. -/
def fieldsInsert (m : List (String × ReflectField)) (k : String) (v : ReflectField) :
    List (String × ReflectField) :=
  match m with
  | [] => [(k, v)]
  | (k0, v0) :: rest =>
    if k0 = k then (k, v) :: rest else (k0, v0) :: fieldsInsert rest k v

/-- The field loop of `Reflect` (reflect/reflect.go lines 73-91). -/
def reflectFields (fields : List GoFieldDecl)
    (acc : List (String × ReflectField)) :
    Except String (List (String × ReflectField)) :=
  match fields with
  | [] => .ok acc
  | f :: rest =>
    match parseTag (f.dbTag.getD "") with
    | .error e => .error e
    | .ok tag =>
      let name := if tag.name = "" then toLowerGo f.fieldName else tag.name
      reflectFields rest (fieldsInsert acc name ⟨f.fieldName, tag⟩)

/-- `Reflect` from reflect/reflect.go: dereference, wrap non-structs as
`ReflectValue`, and build the field map of a struct from the `db` tags. -/
def reflectGo (t : GoType) : Except String ReflectInfo :=
  let t := t.indirect
  match t with
  | .structT name fields =>
    match reflectFields fields [] with
    | .error e => .error e
    | .ok fs => .ok (.structI ⟨name, fs⟩)
  | other => .ok (.value other)

/-- Result of running Go code that may panic, fail with an error, or return. -/
inductive Outcome (α : Type) where
  | panic (msg : String)
  | err (msg : String)
  | ok (a : α)
  deriving DecidableEq, Repr

/-- `ReflectCache.Reflect` from reflect/cache.go: `mustBe` asserts (panics)
that the argument is a pointer, then reflects the pointee.  The cache itself
only memoizes the pure `Reflect` result per type and is semantically
transparent, so it is not modelled as state. -/
def cacheReflect (t : GoType) : Outcome ReflectInfo :=
  match t with
  | .ptr inner =>
    match reflectGo inner with
    | .error e => .err e
    | .ok info => .ok info
  | _ => .panic "reflect.ValueError"

/-- The loop body of `Querier.reflectValues` (sqlair.go lines 177-194).
`i` is the loop index and `prev` the kind of the previous entity.  Note the
guard `i > 1` in the source: the kinds of the first two destinations are
never compared. -/
def reflectValuesLoop : List GoType → Nat → Option GoKind →
    Outcome (List ReflectInfo)
  | [], _, _ => .ok []
  | v :: rest, i, prev =>
    match cacheReflect v with
    | .panic m => .panic m
    | .err e => .err ("reflect: " ++ e)
    | .ok info =>
      if i > 1 && decide (prev ≠ some info.kind) then
        .err "expected all input values to be of the same kind"
      else
        match reflectValuesLoop rest (i + 1) (some info.kind) with
        | .panic m => .panic m
        | .err e => .err e
        | .ok infos => .ok (info :: infos)

/-- `Querier.reflectValues` from sqlair.go. -/
def reflectValues (values : List GoType) : Outcome (List ReflectInfo) :=
  reflectValuesLoop values 0 none

/-- The execute plan selected by `ForOne`/`ForMany` (the Go closures stored in
`Query.executePlan`), identified by their scan routine and captured data. -/
inductive Plan where
  | defaultScan
  | structScan (structs : List ReflectStruct)
  | mapScan
  | sliceStructScan (elements : List ReflectStruct)
  deriving DecidableEq, Repr

/-- The observable part of the `Query` struct built by `ForOne`/`ForMany`:
its reflected entities and selected execute plan (`none` models the zero
value `Query{}` whose `executePlan` is nil). -/
structure Query where
  entities : List ReflectInfo
  plan : Option Plan
  deriving DecidableEq, Repr

/-- The zero value `Query{}`. -/
def emptyQuery : Query := ⟨[], none⟩

/-- Whether every entity is a `ReflectStruct`; `ForOne` asserts this by type
assertion, panicking when it fails. -/
def asStructs : List ReflectInfo → Option (List ReflectStruct)
  | [] => some []
  | .structI s :: rest => (asStructs rest).map (s :: ·)
  | .value _ :: _ => none

/-- `Querier.ForOne` from sqlair.go (lines 55-96).  A reflection error is
discarded (`return Query{}, nil`); with a struct first entity every entity is
cast to `ReflectStruct`, which panics on a mixed list. -/
def forOne (values : List GoType) : Outcome (Query × Option String) :=
  match reflectValues values with
  | .panic m => .panic m
  | .err _ => .ok (emptyQuery, none)
  | .ok entities =>
    if values.length = 0 then
      .ok (⟨entities, some .defaultScan⟩, none)
    else
      match entities with
      | [] => .ok (⟨entities, some .defaultScan⟩, none)
      | e :: _ =>
        match e.kind with
        | .struct =>
          match asStructs entities with
          | none => .panic "interface conversion: ReflectInfo is not ReflectStruct"
          | some structs => .ok (⟨entities, some (.structScan structs)⟩, none)
        | .map =>
          if values.length > 1 then
            .ok (emptyQuery, some "expected one map for query")
          else
            .ok (⟨entities, some .mapScan⟩, none)
        | _ => .ok (⟨entities, some .defaultScan⟩, none)

/-- The per-entity slice set-up loop of `ForMany` (sqlair.go lines 125-153). -/
def forManySlices : List ReflectInfo → Outcome (List ReflectStruct)
  | [] => .ok []
  | entity :: rest =>
    match entity with
    | .value (GoType.sliceT base) =>
      -- reflect.New(base) produces a *base; Reflect dereferences it again.
      match reflectGo base with
      | .error _ => .err "expected slice but got"
      | .ok (.structI s) =>
        match forManySlices rest with
        | .panic m => .panic m
        | .err e => .err e
        | .ok ss => .ok (s :: ss)
      | .ok (.value _) => .err "expected slice T to be struct"
    | _ => .err "expected slice but got"

/-- `Querier.ForMany` from sqlair.go (lines 108-160).  As in `ForOne`, a
reflection error is discarded and `Query{}, nil` is returned. -/
def forMany (values : List GoType) : Outcome (Query × Option String) :=
  if values.length = 0 then
    .ok (emptyQuery, some "expected at least one argument")
  else
    match reflectValues values with
    | .panic m => .panic m
    | .err _ => .ok (emptyQuery, none)
    | .ok entities =>
      match forManySlices entities with
      | .panic m => .panic m
      | .err e => .ok (emptyQuery, some e)
      | .ok elements => .ok (⟨entities, some (.sliceStructScan elements)⟩, none)

/-- The alias-decoding step at the head of `Query.structMapping` (sqlair.go
lines 474-481): strip `AliasPrefix`, `strings.Split` the remainder on
`AliasSeparator` and read `parts[0]`/`parts[1]`.  `none` models the Go
runtime panic (index out of range) when the separator is absent. -/
def structMappingSplitCol (columnName : String) : Option (String × String) :=
  if aliasPfx.toList.isPrefixOf columnName.toList then
    let parts := goSplit aliasSep.toList (columnName.toList.drop aliasPfx.length)
    match parts with
    | p0 :: p1 :: _ => some (String.mk p0, String.mk p1)
    | _ => none
  else
    some ("", columnName)

/-- Association-list lookup for the reflected field map. -/
def fieldsLookup (fields : List (String × ReflectField)) (k : String) :
    Option ReflectField :=
  match fields with
  | [] => none
  | (k0, v) :: rest => if k0 = k then some v else fieldsLookup rest k

/-- `recordBinding` from sqlair.go, with `fields` (a `map[string]struct{}`)
modelled as its key list; `stop` renders the Go field `end`. -/
structure RecordBinding where
  name : String
  pfx : String
  fields : List String
  wildcard : Bool
  start : Nat
  stop : Nat
  deriving DecidableEq, Repr

/-- `recordBinding.translate` from sqlair.go. -/
def RecordBinding.translate (f : RecordBinding) (expantion : Int) : Int :=
  expantion - ((f.stop : Int) - (f.start : Int))

/-- The binding-search loop inside `structMapping` (sqlair.go lines 490-499). -/
def bindingFoundFor (fields : List RecordBinding) (entityName pfx : String) : Bool :=
  fields.any (fun b => b.name = entityName && b.pfx = pfx)

/-- The entity-search loop of `structMapping` (sqlair.go lines 483-505): the
first entity whose field map contains the column name, and whose record
binding matches the decoded prefix when one is present, claims the column.
The claimed scan target is identified by (entity name, column name). -/
def routeColumn (entities : List ReflectStruct) (fields : List RecordBinding)
    (pfx name : String) : Option (String × String) :=
  match entities with
  | [] => none
  | entity :: rest =>
    match fieldsLookup entity.fields name with
    | none => routeColumn rest fields pfx name
    | some _ =>
      if pfx ≠ "" && !bindingFoundFor fields entity.name pfx then
        routeColumn rest fields pfx name
      else
        some (entity.name, name)

/-- `Query.structMapping` from sqlair.go (lines 467-511), over the returned
column names: build the column-indexed list of scan targets. -/
def structMappingGo (columns : List String) (entities : List ReflectStruct)
    (fields : List RecordBinding) : Outcome (List (String × String)) :=
  match columns with
  | [] => .ok []
  | col :: rest =>
    match structMappingSplitCol col with
    | none => .panic "runtime error: index out of range"
    | some (pfx, name) =>
      match routeColumn entities fields pfx name with
      | none => .err ("missing destination name " ++ col)
      | some target =>
        match structMappingGo rest entities fields with
        | .panic m => .panic m
        | .err e => .err e
        | .ok targets => .ok (target :: targets)

/-- `Position` from parser/token.go. -/
structure Position where
  offset : Int
  line : Int
  column : Int
  deriving DecidableEq, Repr

/-- `TokenType` from parser/token.go.  The Go zero value is `EOF` (the
constant after `UNKNOWN = iota - 1`). -/
inductive TokenType where
  | UNKNOWN | EOF | SEPARATOR | IDENT | INT | STRING
  | COMMA | LPAREN | RPAREN | LBRACKET | RBRACKET | BITAND | PERIOD
  deriving DecidableEq, Repr

/-- `Token` from parser/token.go. -/
structure Token where
  pos : Position
  ttype : TokenType
  literal : String
  deriving DecidableEq, Repr

/-- The zero `Token` value: type `TokenType(0)`, i.e. `EOF`. -/
def zeroToken : Token := ⟨⟨0, 0, 0⟩, .EOF, ""⟩

/-- `MakeToken` from parser/token.go. -/
def MakeToken (t : TokenType) (c : Char) : Token :=
  ⟨⟨0, 0, 0⟩, t, String.mk [c]⟩

/-- `tokenMap` from parser/token.go. -/
def tokenMap (c : Char) : Option TokenType :=
  if c = '(' then some .LPAREN
  else if c = ')' then some .RPAREN
  else if c = '[' then some .LBRACKET
  else if c = ']' then some .RBRACKET
  else if c = ',' then some .COMMA
  else if c = '&' then some .BITAND
  else if c = '.' then some .PERIOD
  else none

/-- ASCII fragment of the lexer's `isLetter` (parser/lexer.go): letters,
underscore and the `*` wildcard. -/
def lexIsLetter (c : Char) : Bool :=
  ('a' ≤ c && c ≤ 'z') || ('A' ≤ c && c ≤ 'Z') || c = '_' || c = '*'

/-- ASCII fragment of the lexer's `isDigit` (parser/lexer.go). -/
def lexIsDigit (c : Char) : Bool :=
  '0' ≤ c && c ≤ '9'

/-- The lexer's `isQuote` (parser/lexer.go): the `"` rune. -/
def lexIsQuote (c : Char) : Bool :=
  c = '"'

/-- `Lexer` from parser/lexer.go.  The rune 0 stands for Go's NUL sentinel. -/
structure LexerS where
  input : List Char
  char : Char
  position : Nat
  readPosition : Nat
  line : Int
  column : Int
  deriving DecidableEq, Repr

/-- `NewLexer` from parser/lexer.go. -/
def NewLexer (input : String) : LexerS :=
  ⟨input.toList, '\x00', 0, 0, 1, 1⟩

/-- `Lexer.ReadNext` from parser/lexer.go. -/
def LexerS.ReadNext (l : LexerS) : LexerS :=
  if l.readPosition ≥ l.input.length then
    ⟨l.input, '\x00', l.readPosition, l.readPosition + 1, l.line, l.column⟩
  else
    let c := l.input.getD l.readPosition '\x00'
    if c = '\n' then
      ⟨l.input, c, l.readPosition, l.readPosition + 1, l.line + 1, 1⟩
    else
      ⟨l.input, c, l.readPosition, l.readPosition + 1, l.line, l.column + 1⟩

/-- `Lexer.PeekN` from parser/lexer.go. -/
def LexerS.PeekN (l : LexerS) (n : Nat) : Char :=
  if l.readPosition + n ≥ l.input.length then '\x00'
  else l.input.getD (l.readPosition + n) '\x00'

/-- `Lexer.Peek` from parser/lexer.go. -/
def LexerS.Peek (l : LexerS) : Char :=
  l.PeekN 0

/-- `Lexer.getPosition` from parser/lexer.go. -/
def LexerS.getPosition (l : LexerS) : Position :=
  ⟨(l.position : Int), l.line, l.column⟩

/-- The `skipWhitespace` loop of the lexer.  Every iteration advances
`readPosition`, so fuel `input.length + 2` always suffices. -/
def skipWhitespaceF : Nat → LexerS → Bool → Bool × LexerS
  | 0, l, skipped => (skipped, l)
  | fuel + 1, l, skipped =>
    if isSpaceGo l.char then skipWhitespaceF fuel l.ReadNext true
    else (skipped, l)

/-- `Lexer.skipWhitespace` from parser/lexer.go. -/
def LexerS.skipWhitespace (l : LexerS) : Bool × LexerS :=
  skipWhitespaceF (l.input.length + 2) l false

/-- The scanning loop of `readIdentifier`; fuel as in `skipWhitespace`. -/
def readIdentifierF : Nat → LexerS → LexerS
  | 0, l => l
  | fuel + 1, l =>
    if lexIsLetter l.char || lexIsDigit l.char || l.char = '-' then
      readIdentifierF fuel l.ReadNext
    else l

/-- `Lexer.readIdentifier` from parser/lexer.go: the longest run of letters,
digits and `-`, returned as the input slice between the start and the final
position. -/
def LexerS.readIdentifier (l : LexerS) : String × LexerS :=
  let start := l.position
  let l' := readIdentifierF (l.input.length + 2) l
  (String.mk ((l'.input.drop start).take (l'.position - start)), l')

/-- The scanning loop of `readNumber`; fuel as above. -/
def readNumberF : Nat → LexerS → List Char → List Char × LexerS
  | 0, l, ret => (ret, l)
  | fuel + 1, l, ret =>
    if lexIsDigit l.char || l.char = '.' then
      if l.char = '.' && l.Peek = '.' then (ret, l)
      else readNumberF fuel l.ReadNext (ret ++ [l.char])
    else (ret, l)

/-- `Lexer.readNumber` from parser/lexer.go: digits with embedded `.` unless
two consecutive dots follow. -/
def LexerS.readNumber (l : LexerS) : String × LexerS :=
  let ret := [l.char]
  let (ret, l') := readNumberF (l.input.length + 2) l.ReadNext ret
  (String.mk ret, l')

/-- The scanning loop of `readString`; fuel as above.  An unterminated string
(newline or end of input) is a lex error. -/
def readStringF (r : Char) : Nat → LexerS → List Char → (Except String String) × LexerS
  | 0, l, _ => (.error "unexpected EOF", l)
  | fuel + 1, l, ret =>
    let l := l.ReadNext
    if l.char = '\n' then (.error "unexpected EOL", l)
    else if l.char = '\x00' then (.error "unexpected EOF", l)
    else if l.char = r then (.ok (String.mk ret), l.ReadNext)
    else readStringF r fuel l (ret ++ [l.char])

/-- `Lexer.readString` from parser/lexer.go. -/
def LexerS.readString (l : LexerS) (r : Char) : (Except String String) × LexerS :=
  readStringF r (l.input.length + 2) l []

/-- `Lexer.readRunesToken` from parser/lexer.go.  A failed string read falls
through to the common tail, which advances and emits `UNKNOWN` holding the
post-advance rune — exactly as the Go control flow does. -/
def LexerS.readRunesToken (l : LexerS) : Token × LexerS :=
  if l.char = '\x00' then
    (⟨⟨0, 0, 0⟩, .EOF, ""⟩, l)
  else if lexIsDigit l.char then
    let (lit, l') := l.readNumber
    (⟨⟨0, 0, 0⟩, .INT, lit⟩, l')
  else if lexIsLetter l.char then
    let (lit, l') := l.readIdentifier
    (⟨⟨0, 0, 0⟩, .IDENT, lit⟩, l')
  else if lexIsQuote l.char then
    match l.readString l.char with
    | (.ok s, l') => (⟨⟨0, 0, 0⟩, .STRING, s⟩, l')
    | (.error _, l') =>
      let l'' := l'.ReadNext
      (MakeToken .UNKNOWN l''.char, l'')
  else
    let l' := l.ReadNext
    (MakeToken .UNKNOWN l'.char, l')

/-- `Lexer.NextToken` from parser/lexer.go. -/
def LexerS.NextToken (l : LexerS) : Token × LexerS :=
  let pos0 := l.getPosition
  let pos : Position := ⟨pos0.offset, pos0.line, pos0.column - 1⟩
  let (skipped, l1) := l.skipWhitespace
  if skipped then
    let tok := MakeToken .SEPARATOR ' '
    (⟨pos, tok.ttype, tok.literal⟩, l1.ReadNext)
  else
    match tokenMap l1.char with
    | some t =>
      let tok := MakeToken t l1.char
      (⟨pos, tok.ttype, tok.literal⟩, l1.ReadNext)
    | none =>
      let (tok, l2) := l1.readRunesToken
      (⟨pos, tok.ttype, tok.literal⟩, l2)

/-- The path AST (parser/expressions.go).  `nilE` models a nil Go
`Expression` interface value, which `parseExpression` can return. -/
inductive Expr where
  | query (es : List Expr)
  | exprStmt (tok : Token) (e : Expr)
  | accessor (tok : Token) (left : Expr) (right : Expr)
  | indexE (tok : Token) (left : Expr) (index : Expr)
  | identE (tok : Token)
  | strE (tok : Token)
  | intE (tok : Token) (value : Int)
  | sepE (tok : Token)
  | emptyE (tok : Token)
  | nilE
  deriving Repr

/-- `Parser` from parser/parser.go (the prefix/infix maps are fixed and
realised as the dispatch functions below). -/
structure ParserS where
  lex : LexerS
  errors : List String
  currentToken : Token
  peekToken : Token
  terminated : Bool
  deriving DecidableEq, Repr

/-- `Parser.nextToken` from parser/parser.go. -/
def ParserS.nextTokenP (p : ParserS) : ParserS :=
  let (tok, lex') := p.lex.NextToken
  ⟨lex', p.errors, p.peekToken, tok, p.terminated⟩

/-- Append a parser error.  The Go messages interpolate positions and token
texts; the embedding keeps fixed descriptive texts, which is enough since
only presence of errors is ever inspected. -/
def pushError (p : ParserS) (msg : String) : ParserS :=
  ⟨p.lex, p.errors ++ [msg], p.currentToken, p.peekToken, p.terminated⟩

/-- `NewParser` from parser/parser.go: prime the lexer and load the two-token
lookahead. -/
def NewParser (input : String) : ParserS :=
  let l := (NewLexer input).ReadNext
  let p : ParserS := ⟨l, [], zeroToken, zeroToken, false⟩
  p.nextTokenP.nextTokenP

/-- The `precedence` map from parser/parser.go (`LOWEST = 0`, `INDEX = 1`);
missing entries default to `LOWEST`. -/
def precedenceOf (t : TokenType) : Nat :=
  match t with
  | .LBRACKET => 1
  | .PERIOD => 1
  | _ => 0

/-- The prefix-handler map keys (parser/parser.go `p.prefix`). -/
inductive PrefixKind where
  | kIdent | kInt | kString | kGroup
  deriving DecidableEq, Repr

/-- Membership in the parser's prefix map. -/
def prefixKindOf (t : TokenType) : Option PrefixKind :=
  match t with
  | .IDENT => some .kIdent
  | .INT => some .kInt
  | .STRING => some .kString
  | .LPAREN => some .kGroup
  | _ => none

/-- The infix-handler map keys (parser/parser.go `p.infix`). -/
inductive InfixKind where
  | iAccessor | iIndex
  deriving DecidableEq, Repr

/-- Membership in the parser's infix map. -/
def infixKindOf (t : TokenType) : Option InfixKind :=
  match t with
  | .PERIOD => some .iAccessor
  | .LBRACKET => some .iIndex
  | _ => none

/-- `strconv.ParseInt(lit, 10, 64)`: decimal digits only.  (On error Go also
returns a clamped value; the parser only uses the error to push a message,
and the accompanying value for inputs exercised here is irrelevant.) -/
def parseIntLit (s : String) : Option Int :=
  let cs := s.toList
  if cs ≠ [] && cs.all lexIsDigit then
    some (Int.ofNat (cs.foldl (fun n c => n * 10 + (c.toNat - '0'.toNat)) 0))
  else none

/-- `Parser.expectPeek` from parser/parser.go. -/
def expectPeek (p : ParserS) (t : TokenType) : Bool × ParserS :=
  if p.peekToken.ttype = t then (true, p.nextTokenP)
  else (false, pushError p "expected token")

mutual

/-- `Parser.parseExpression` from parser/parser.go.  All parsing functions
carry fuel; each nested call strictly decreases it, and the top-level callers
supply more than enough for any input, making the 0 cases unreachable. -/
def parseExpressionGo : Nat → Nat → ParserS → Expr × ParserS
  | 0, _, p => (.nilE, p)
  | fuel + 1, prec, p =>
    match prefixKindOf p.currentToken.ttype with
    | none =>
      if p.terminated then (.nilE, p)
      else if p.currentToken.ttype ≠ .EOF then
        (.nilE, pushError p "invalid character found")
      else (.nilE, p)
    | some pk =>
      let (leftExp, p) := applyPrefixGo fuel pk p
      infixLoopGo fuel prec leftExp p

/-- Dispatch through the parser's prefix map (`parseIdentifier`,
`parseInteger`, `parseString`, `parseGroup`). -/
def applyPrefixGo : Nat → PrefixKind → ParserS → Expr × ParserS
  | 0, _, p => (.nilE, p)
  | fuel + 1, pk, p =>
    match pk with
    | .kIdent => (.identE p.currentToken, p)
    | .kString => (.strE p.currentToken, p)
    | .kInt =>
      match parseIntLit p.currentToken.literal with
      | some v => (.intE p.currentToken v, p)
      | none => (.intE p.currentToken 0, pushError p "could not parse as integer")
    | .kGroup => parseGroupGo fuel p

/-- `Parser.parseGroup` from parser/parser.go.  (The Go guard
`currentToken.Type == LPAREN && isCurrentToken(RPAREN)` can never hold; it is
transcribed anyway.) -/
def parseGroupGo : Nat → ParserS → Expr × ParserS
  | 0, p => (.nilE, p)
  | fuel + 1, p =>
    let p := p.nextTokenP
    if p.currentToken.ttype = .LPAREN && p.currentToken.ttype = .RPAREN then
      (.emptyE p.currentToken, p)
    else
      let (exp, p) := parseExpressionGo fuel 0 p
      match expectPeek p .RPAREN with
      | (true, p) => (exp, p)
      | (false, p) => (.nilE, p)

/-- The infix loop at the tail of `parseExpression`. -/
def infixLoopGo : Nat → Nat → Expr → ParserS → Expr × ParserS
  | 0, _, leftExp, p => (leftExp, p)
  | fuel + 1, prec, leftExp, p =>
    if !(p.peekToken.ttype = .SEPARATOR) && prec < precedenceOf p.peekToken.ttype then
      match infixKindOf p.peekToken.ttype with
      | none => (leftExp, p)
      | some ik =>
        let p := p.nextTokenP
        match ik with
        | .iAccessor =>
          let (leftExp, p) := parseAccessorGo fuel leftExp p
          infixLoopGo fuel prec leftExp p
        | .iIndex =>
          let (leftExp, p) := parseIndexGo fuel leftExp p
          infixLoopGo fuel prec leftExp p
    else (leftExp, p)

/-- `Parser.parseIndex` from parser/parser.go. -/
def parseIndexGo : Nat → Expr → ParserS → Expr × ParserS
  | 0, _, p => (.nilE, p)
  | fuel + 1, left, p =>
    let p := p.nextTokenP
    let tok := p.currentToken
    let (idx, p) := parseExpressionGo fuel 0 p
    match expectPeek p .RBRACKET with
    | (true, p) => (.indexE tok left idx, p)
    | (false, p) => (.nilE, p)

/-- `Parser.parseAccessor` from parser/parser.go: note the result token is
the parser's current token after the right side was parsed. -/
def parseAccessorGo : Nat → Expr → ParserS → Expr × ParserS
  | 0, _, p => (.nilE, p)
  | fuel + 1, left, p =>
    let prec := precedenceOf p.currentToken.ttype
    let p := p.nextTokenP
    let (right, p) := parseExpressionGo fuel prec p
    (.accessor p.currentToken left right, p)

end

/-- `Parser.parseExpressionStatement` from parser/parser.go: parse one
expression and flag termination when the next token is a separator. -/
def parseExpressionStatementGo (fuel : Nat) (p : ParserS) : Expr × ParserS :=
  let tok := p.currentToken
  let (e, p) := parseExpressionGo fuel 0 p
  let stmt := Expr.exprStmt tok e
  if p.peekToken.ttype = .SEPARATOR then
    (stmt, ⟨p.lex, p.errors, p.currentToken, p.peekToken, true⟩)
  else (stmt, p)

/-- The statement loop of `Parser.Run`. -/
def runLoopGo : Nat → ParserS → List Expr → List Expr × ParserS
  | 0, p, acc => (acc, p)
  | fuel + 1, p, acc =>
    if p.currentToken.ttype = .EOF then (acc, p)
    else if p.terminated then (acc, p)
    else
      let (e, p) := parseExpressionStatementGo fuel p
      runLoopGo fuel p.nextTokenP (acc ++ [e])

/-- `Parser.Run` from parser/parser.go: parse until `EOF` or termination;
report the joined errors, or the query expression and consumed offset. -/
def parserRun (fuel : Nat) (p : ParserS) : Expr × Int × Option String :=
  let (es, p) := runLoopGo fuel p []
  if p.errors ≠ [] then
    (.nilE, (p.lex.position : Int), some (String.intercalate "\n" p.errors))
  else
    (.query es, p.currentToken.pos.offset, none)

/-- `tokenizeRecordPath` from recordpath.go: lex and parse `stmt[offset:]`. -/
def tokenizeRecordPath (stmt : String) (offset : Nat) : Expr × Int × Option String :=
  parserRun (8 * (stmt.length + 4)) (NewParser (stmt.drop offset))

/-- `recordPath` atoms from recordpath.go (`recordPathIdent` /
`recordPathInteger` / `recordPathString`). -/
inductive RPAtom where
  | ident (value : String)
  | int (value : Int)
  | str (value : String)
  deriving DecidableEq, Repr

/-- The record-path compiler's error: the `ErrTooMany` sentinel or an
ordinary message. -/
inductive RPErr where
  | tooMany
  | msg (s : String)
  deriving DecidableEq, Repr

/-- `compileRecordPathAST` from recordpath.go: flatten the AST to its atom
sequence.  The pair mirrors Go's `([]recordPath, error)`; a `Query` node with
more than one expression returns the first expression's atoms together with
`ErrTooMany`.  Fuel decreases with every recursive call and is unreachable at
0 for the ASTs the parser produces. -/
def compileRecordPathASTF : Nat → Expr → List RPAtom × Option RPErr
  | 0, _ => ([], some (.msg "fuel exhausted"))
  | fuel + 1, e =>
    match e with
    | .query es =>
      match es with
      | [] => ([], none)
      | e0 :: rest =>
        match compileRecordPathASTF fuel e0 with
        | (_, some er) => ([], some er)
        | (result, none) =>
          if rest.length > 0 then (result, some .tooMany) else (result, none)
    | .exprStmt _ inner => compileRecordPathASTF fuel inner
    | .indexE _ left idx =>
      match compileRecordPathASTF fuel left with
      | (_, some er) => ([], some er)
      | (l, none) =>
        match compileRecordPathASTF fuel idx with
        | (_, some er) => ([], some er)
        | (i, none) => (l ++ i, none)
    | .accessor _ left right =>
      match compileRecordPathASTF fuel left with
      | (_, some er) => ([], some er)
      | (l, none) =>
        match compileRecordPathASTF fuel right with
        | (_, some er) => ([], some er)
        | (r, none) => (l ++ r, none)
    | .identE tok => ([.ident tok.literal], none)
    | .intE _ v => ([.int v], none)
    | .strE tok => ([.str tok.literal], none)
    | .sepE _ => ([], none)
    | .emptyE _ => ([], none)
    | .nilE => ([], some (.msg "syntax error: unexpected expression"))

/-- `parseRecordPath` from recordpath.go: tokenize, then flatten. -/
def parseRecordPath (stmt : String) (offset : Nat) :
    List RPAtom × Int × Option RPErr :=
  let (ast, consumed, err) := tokenizeRecordPath stmt offset
  match err with
  | some e => ([], consumed, some (.msg e))
  | none =>
    match compileRecordPathASTF (stmt.length + 8) ast with
    | (_, some e) => ([], -1, some e)
    | (paths, none) => (paths, consumed, none)

/-- `indexOfRecordArgs` from sqlair.go: `strings.IndexRune(stmt, '&')`;
`none` models `-1`. -/
def indexOfRecordArgs (stmt : String) : Option Nat :=
  stmt.toList.findIdx? (· = '&')

/-- The reverse selector scan inside `parseRecords` (sqlair.go lines 804-818):
walk backwards from index `k - 1`, collecting letters into `sel` (prepending)
until a space is met after at least one letter; any other rune is an error.
`off` tracks the Go `offset` variable (updated after each non-breaking
iteration, and unused by the caller except in a debug print). -/
def selectorScan (stmt : List Char) : Nat → String → Nat → Except String (String × Nat)
  | 0, sel, off => .ok (sel, off)
  | k + 1, sel, off =>
    let c := stmt.getD k '\x00'
    if isSpaceGo c then
      if sel.length > 0 then .ok (sel, off)
      else selectorScan stmt k sel k
    else if isLetterGo c then
      selectorScan stmt k (String.mk (c :: sel.toList)) k
    else
      .error "expected selector"

/-- The message of a record-path error as a plain string (`ErrTooMany`
carries the text "got more than one expression"). -/
def RPErr.toMsg : RPErr → String
  | .tooMany => "got more than one expression"
  | .msg s => s

/-- The table-path error check at the tail of the `parseRecords` loop body:
as for the entity path, only errors other than `ErrTooMany` abort. -/
def parseRecordsTableCheck (errTable : Option RPErr)
    (next : Except String (List RecordBinding)) : Except String (List RecordBinding) :=
  match errTable with
  | some e =>
    if e ≠ .tooMany then .error e.toMsg
    else next
  | none => next

/-- The remainder of the `parseRecords` loop body after the entity path was
parsed (sqlair.go lines 799-833): the reverse `AS` lookup and the second
(off-by-design, offset-1) path parse.  `next` is the outcome of the loop's
next iteration, which the Go `for` loop proceeds to when this body finishes
without returning. -/
def parseRecordsAfterEntity (stmt : String) (i : Nat)
    (next : Except String (List RecordBinding)) : Except String (List RecordBinding) :=
  match selectorScan stmt.toList i "" 0 with
  | .error e => .error e
  | .ok (selector, _off) =>
    if toLowerGo (trimGo selector) ≠ "as" then
      .error ("expected AS selector, got: " ++ selector)
    else
      -- prior := 0; the table path is parsed from offset prior+1 = 1.
      parseRecordsTableCheck ((parseRecordPath stmt 1).2.2) next

/-- The entity-path error check at the top of the `parseRecords` loop body:
a `parseRecordPath` failure other than `ErrTooMany` aborts; otherwise the
body continues with the `AS` lookup. -/
def parseRecordsEntityCheck (errEntity : Option RPErr) (stmt : String) (i : Nat)
    (next : Except String (List RecordBinding)) : Except String (List RecordBinding) :=
  match errEntity with
  | some e =>
    if e ≠ .tooMany then .error e.toMsg
    else parseRecordsAfterEntity stmt i next
  | none => parseRecordsAfterEntity stmt i next

/-- The scanning loop of `parseRecords` (sqlair.go lines 783-834).  The
accumulated `records` list is threaded through exactly as the Go variable is:
it is never extended.  `parseRecordPath` is the three-valued version from
recordpath.go; only its error value is consulted, and an `ErrTooMany` is
tolerated.  Fuel decreases at each step; the index advances by one per
iteration, so `stmt.length + 1` is always enough. -/
def parseRecordsLoop (stmt : String) :
    Nat → Nat → List RecordBinding → Except String (List RecordBinding)
  | 0, _, _ => .error "fuel exhausted"
  | fuel + 1, i, records =>
    if i < stmt.length then
      if stmt.toList.getD i '\x00' ≠ '&' then .ok records
      else
        -- Select the entity path after the '&'.
        parseRecordsEntityCheck ((parseRecordPath stmt (i + 1)).2.2) stmt i
          (parseRecordsLoop stmt fuel (i + 1) records)
    else .ok records

/-- `parseRecords` from sqlair.go. -/
def parseRecords (stmt : String) (offset : Nat) : Except String (List RecordBinding) :=
  parseRecordsLoop stmt (stmt.length + 1) offset []

/-- Association-list lookup for the field-intersection map. -/
def interLookup (m : List (String × List String)) (k : String) : List String :=
  match m with
  | [] => []
  | (k0, v) :: rest => if k0 = k then v else interLookup rest k

/-- `constructFieldNameAlias` from sqlair.go. -/
def constructFieldNameAlias (name : String) (record : RecordBinding)
    (intersection : List String) : String :=
  if record.pfx = "" then name
  else
    let aliasStr :=
      if intersection.contains name then
        " AS " ++ aliasPfx ++ record.pfx ++ aliasSep ++ name
      else ""
    record.pfx ++ "." ++ name ++ aliasStr

/-- Insert-or-extend for the grouping map in `fieldIntersections`. -/
def groupInsert (m : List (String × List ReflectStruct)) (k : String)
    (e : ReflectStruct) : List (String × List ReflectStruct) :=
  match m with
  | [] => [(k, [e])]
  | (k0, v) :: rest =>
    if k0 = k then (k0, v ++ [e]) :: rest else (k0, v) :: groupInsert rest k e

/-- The grouping pass of `fieldIntersections`. -/
def groupFields (entities : List ReflectStruct)
    (acc : List (String × List ReflectStruct)) :
    List (String × List ReflectStruct) :=
  match entities with
  | [] => acc
  | e :: rest =>
    groupFields rest (e.fieldNames.foldl (fun m f => groupInsert m f e) acc)

/-- Insert-or-extend for the inverted result map of `fieldIntersections`. -/
def resultInsert (m : List (String × List String)) (k : String) (f : String) :
    List (String × List String) :=
  match m with
  | [] => [(k, [f])]
  | (k0, v) :: rest =>
    if k0 = k then (k0, v ++ [f]) :: rest else (k0, v) :: resultInsert rest k f

/-- `fieldIntersections` from sqlair.go: map each entity name to the set of
its field names shared with at least one other entity.  (The Go map
iteration order does not affect the sets, only the list order, which no
caller depends on.) -/
def fieldIntersections (entities : List ReflectStruct) :
    List (String × List String) :=
  if entities.length ≤ 1 then []
  else
    let groups := groupFields entities []
    groups.foldl
      (fun results fieldGroup =>
        if fieldGroup.2.length ≤ 1 then results
        else fieldGroup.2.foldl (fun rs e => resultInsert rs e.name fieldGroup.1) results)
      []

/-- The per-record field-name collection inside `expandRecords` (sqlair.go
lines 852-867): wildcard records take every entity field, explicit records
verify each listed field exists. -/
def expandNames (record : RecordBinding) (entity : ReflectStruct)
    (entityInter : List String) : Except String (List String) :=
  if record.wildcard then
    .ok (entity.fields.map (fun f => constructFieldNameAlias f.1 record entityInter))
  else
    let rec go : List String → Except String (List String)
      | [] => .ok []
      | n :: rest =>
        if (fieldsLookup entity.fields n).isNone then
          .error ("field " ++ n ++ " not found in entity " ++ entity.name)
        else
          match go rest with
          | .error e => .error e
          | .ok ns => .ok (constructFieldNameAlias n record entityInter :: ns)
    go record.fields

/-- The record loop of `expandRecords` (sqlair.go lines 839-886), threading
the running `offset` adjustment. -/
def expandRecordsLoop (entities : List ReflectStruct)
    (intersections : List (String × List String)) :
    List RecordBinding → String → Int → Except String String
  | [], stmt, _ => .ok stmt
  | record :: rest, stmt, offset =>
    match entities.find? (fun e => record.name = e.name) with
    | none => .error ("no entity found with the name " ++ record.name)
    | some entity =>
      let entityInter := interLookup intersections entity.name
      match expandNames record entity entityInter with
      | .error e => .error e
      | .ok names =>
        if names.length = 0 then
          .error ("no fields found in record " ++ entity.name ++ " expression")
        else
          let sorted := insertionSortGo (fun a b => strLe a.toList b.toList) names
          let recordList := String.intercalate ", " sorted
          let stmt' := (stmt.take (offset + record.start).toNat)
            ++ recordList ++ (stmt.drop (offset + record.stop).toNat)
          let offset' := offset + record.translate (recordList.length : Int)
          expandRecordsLoop entities intersections rest stmt' offset'

/-- `expandRecords` from sqlair.go. -/
def expandRecords (stmt : String) (records : List RecordBinding)
    (entities : List ReflectStruct)
    (intersections : List (String × List String)) : Except String String :=
  expandRecordsLoop entities intersections records stmt 0

/-- `compileStatement` from sqlair.go (lines 357-375). -/
def compileStatement (stmt : String) (entities : List ReflectStruct) :
    Except String (String × List RecordBinding) :=
  match indexOfRecordArgs stmt with
  | none => .ok (stmt, [])
  | some offset =>
    match parseRecords stmt offset with
    | .error e => .error e
    | .ok fields =>
      let intersections := fieldIntersections entities
      match expandRecords stmt fields entities intersections with
      | .error e => .error e
      | .ok stmt' => .ok (stmt', fields)

/-- `cachedStmt` from sqlair.go. -/
structure CachedStmt where
  stmt : String
  fields : List RecordBinding
  deriving DecidableEq, Repr

/-- The `statementCache` map (its mutex serialises access; the embedding
works with the map value directly). -/
abbrev StmtCache := List (String × CachedStmt)

/-- `statementCache.Get`. -/
def cacheGet (c : StmtCache) (stmt : String) : Option CachedStmt :=
  match c with
  | [] => none
  | (k, v) :: rest => if k = stmt then some v else cacheGet rest stmt

/-- `statementCache.Set` (map assignment). -/
def cacheSet (c : StmtCache) (stmt : String) (v : CachedStmt) : StmtCache :=
  match c with
  | [] => [(stmt, v)]
  | (k, v0) :: rest =>
    if k = stmt then (stmt, v) :: rest else (k, v0) :: cacheSet rest stmt v

/-- The compile-and-cache control flow of `Query.structScan` (sqlair.go lines
377-416) on a successful execution: consult the cache, compile on a miss, and
insert only when compilation changed the text.  The driver interaction in the
middle succeeds by assumption.  Returns the SQL actually executed, the cache
after the call, and whether `compileStatement` ran. -/
def structScanStep (cache : StmtCache) (stmt : String)
    (entities : List ReflectStruct) : Except String (String × StmtCache × Bool) :=
  match cacheGet cache stmt with
  | some cached => .ok (cached.stmt, cache, false)
  | none =>
    match compileStatement stmt entities with
    | .error e => .error e
    | .ok (compiledStmt, fields) =>
      let cache' :=
        if stmt ≠ compiledStmt then cacheSet cache stmt ⟨compiledStmt, fields⟩
        else cache
      .ok (compiledStmt, cache', true)

/-- The compile control flow of `Query.sliceStructScan` (sqlair.go lines
419-465): it compiles unconditionally and neither reads nor writes the
statement cache. -/
def sliceStructScanStep (cache : StmtCache) (stmt : String)
    (elements : List ReflectStruct) : Except String (String × StmtCache × Bool) :=
  match compileStatement stmt elements with
  | .error e => .error e
  | .ok (compiledStmt, _fields) => .ok (compiledStmt, cache, true)

/-- The reflected `Person` type of the repository tests:
fields tagged `db:"name"` and `db:"age"`. -/
def personR : ReflectStruct :=
  ⟨"Person", [("name", ⟨"Name", ⟨"name", false⟩⟩), ("age", ⟨"Age", ⟨"age", false⟩⟩)]⟩

/-- The reflected `Location` type of the repository tests: field `db:"city"`. -/
def locationR : ReflectStruct :=
  ⟨"Location", [("city", ⟨"City", ⟨"city", false⟩⟩)]⟩

/-- The join statement with two record expressions, as used by the test
`TestQueryJoinWithMultiplePrefixStructs`. -/
def stmtJoin : String :=
  "SELECT \x7bpeople.* INTO Person\x7d, \x7blocation.* INTO Location\x7d FROM people INNER JOIN location ON people.location=location.id WHERE location.id=:loc_id AND people.name=:name;"

/-- The projection expansion of `stmtJoin` asserted by the same test. -/
def stmtJoinExpanded : String :=
  "SELECT people.age, people.name, location.city FROM people INNER JOIN location ON people.location=location.id WHERE location.id=:loc_id AND people.name=:name;"

/-- The record binding for `\x7bpeople.* INTO Person\x7d` of `stmtJoin`
(offsets 7-29), shaped as the repository's `TestParseRecords` expectations
describe such bindings. -/
def rbPeople : RecordBinding := ⟨"Person", "people", ["*"], true, 7, 29⟩

/-- The record binding for `\x7blocation.* INTO Location\x7d` of `stmtJoin`
(offsets 31-57). -/
def rbLocation : RecordBinding := ⟨"Location", "location", ["*"], true, 31, 57⟩

/-- The statement of the repository test `TestQueryWithStructUsesCache`. -/
def stmtCacheTest : String :=
  "SELECT \x7btest.* INTO Person\x7d FROM test WHERE test.name=:name;"

/-- The expansion of `stmtCacheTest` that the same test expects to be
executed and cached. -/
def stmtCacheTestExpanded : String :=
  "SELECT test.age, test.name FROM test WHERE test.name=:name;"

/-! ### Helper lemmas -/

theorem strLe_total : ∀ s t : List Char, strLe s t = true ∨ strLe t s = true := by
  intro s
  induction s with
  | nil => intro t; left; rfl
  | cons a as ih =>
    intro t
    cases t with
    | nil => right; rfl
    | cons b bs =>
      by_cases hab : a = b
      · subst hab
        simp only [strLe, if_pos rfl]
        exact ih bs
      · have hba : b ≠ a := fun h => hab h.symm
        simp only [strLe, if_neg hab, if_neg hba]
        rcases lt_or_gt_of_ne hab with h | h
        · left; exact decide_eq_true h
        · right; exact decide_eq_true h

theorem strLe_trans : ∀ s t u : List Char,
    strLe s t = true → strLe t u = true → strLe s u = true := by
  intro s
  induction s with
  | nil => intro t u _ _; rfl
  | cons a as ih =>
    intro t u hst htu
    cases t with
    | nil => simp [strLe] at hst
    | cons b bs =>
      cases u with
      | nil => simp [strLe] at htu
      | cons c cs =>
        by_cases hab : a = b
        · subst hab
          simp only [strLe, if_pos rfl] at hst
          by_cases hac : a = c
          · subst hac
            simp only [strLe, if_pos rfl] at htu ⊢
            exact ih bs cs hst htu
          · simp only [strLe, if_neg hac] at htu ⊢
            exact htu
        · simp only [strLe, if_neg hab] at hst
          have hlt : a < b := of_decide_eq_true hst
          by_cases hbc : b = c
          · subst hbc
            simp only [strLe, if_neg hab]
            exact decide_eq_true hlt
          · simp only [strLe, if_neg hbc] at htu
            have hlt2 : b < c := of_decide_eq_true htu
            have hac : a < c := lt_trans hlt hlt2
            have hned : a ≠ c := ne_of_lt hac
            simp only [strLe, if_neg hned]
            exact decide_eq_true hac

theorem mem_orderedInsertGo {α : Type} (le : α → α → Bool) (a x : α) :
    ∀ l : List α, x ∈ orderedInsertGo le a l ↔ x = a ∨ x ∈ l := by
  intro l
  induction l with
  | nil => simp [orderedInsertGo]
  | cons b bl ih =>
    by_cases h : le a b = true
    · rw [orderedInsertGo, if_pos h]
      simp
    · rw [orderedInsertGo, if_neg h]
      simp only [List.mem_cons, ih]
      tauto

theorem pairwise_orderedInsertGo {α : Type} (le : α → α → Bool)
    (htot : ∀ x y, le x y = true ∨ le y x = true)
    (htrans : ∀ x y z, le x y = true → le y z = true → le x z = true)
    (a : α) :
    ∀ l : List α, l.Pairwise (fun x y => le x y = true) →
      (orderedInsertGo le a l).Pairwise (fun x y => le x y = true) := by
  intro l
  induction l with
  | nil => intro _; simp [orderedInsertGo]
  | cons b bl ih =>
    intro hp
    rw [List.pairwise_cons] at hp
    obtain ⟨hb, hbl⟩ := hp
    by_cases h : le a b = true
    · rw [orderedInsertGo, if_pos h, List.pairwise_cons]
      refine ⟨?_, List.pairwise_cons.mpr ⟨hb, hbl⟩⟩
      intro y hy
      rw [List.mem_cons] at hy
      rcases hy with rfl | hy
      · exact h
      · exact htrans a b y h (hb y hy)
    · rw [orderedInsertGo, if_neg h, List.pairwise_cons]
      constructor
      · intro y hy
        rw [mem_orderedInsertGo] at hy
        rcases hy with rfl | hy
        · rcases htot y b with h1 | h1
          · exact absurd h1 h
          · exact h1
        · exact hb y hy
      · exact ih hbl

theorem pairwise_insertionSortGo {α : Type} (le : α → α → Bool)
    (htot : ∀ x y, le x y = true ∨ le y x = true)
    (htrans : ∀ x y z, le x y = true → le y z = true → le x z = true) :
    ∀ l : List α, (insertionSortGo le l).Pairwise (fun x y => le x y = true) := by
  intro l
  induction l with
  | nil => simp [insertionSortGo]
  | cons b bl ih =>
    rw [insertionSortGo]
    exact pairwise_orderedInsertGo le htot htrans b _ ih

theorem nameLe_total : ∀ x y : NameBinding, nameLe x y = true ∨ nameLe y x = true :=
  fun x y => strLe_total x.name.toList y.name.toList

theorem nameLe_trans : ∀ x y z : NameBinding,
    nameLe x y = true → nameLe y z = true → nameLe x z = true :=
  fun x y z h1 h2 => strLe_trans x.name.toList y.name.toList z.name.toList h1 h2
theorem goSplitF_ne_nil (sep : List Char) : ∀ fuel s, goSplitF sep fuel s ≠ [] := by
  intro fuel
  induction fuel with
  | zero => intro s; cases s <;> simp [goSplitF]
  | succ n ih =>
    intro s
    cases s with
    | nil => simp [goSplitF]
    | cons c rest =>
      rw [goSplitF]
      by_cases h : sep.isPrefixOf (c :: rest) = true
      · simp [h]
      · rw [if_neg h]
        cases hg : goSplitF sep n rest with
        | nil => simp
        | cons hd tl => simp

theorem goSplitF_length_ge_two (sep : List Char) (hsep : sep ≠ []) :
    ∀ fuel s, sep <:+: s → fuel ≥ s.length →
      (goSplitF sep fuel s).length ≥ 2 := by
  intro fuel
  induction fuel with
  | zero =>
    intro s hinf hfuel
    have : s = [] := List.length_eq_zero.mp (Nat.le_antisymm hfuel (Nat.zero_le _))
    subst this
    exact absurd (List.infix_nil.mp hinf) hsep
  | succ n ih =>
    intro s hinf hfuel
    cases s with
    | nil => exact absurd (List.infix_nil.mp hinf) hsep
    | cons c rest =>
      rw [goSplitF]
      by_cases h : sep.isPrefixOf (c :: rest) = true
      · rw [if_pos h]
        have hne := goSplitF_ne_nil sep n ((c :: rest).drop (max sep.length 1))
        have : (goSplitF sep n ((c :: rest).drop (max sep.length 1))).length ≥ 1 :=
          Nat.one_le_iff_ne_zero.mpr (fun hz => hne (List.length_eq_zero.mp hz))
        simp only [List.length_cons]
        omega
      · rw [if_neg h]
        have hinf2 : sep <:+: rest := by
          rcases List.infix_cons_iff.mp hinf with hpre | hinf2
          · exact absurd (List.isPrefixOf_iff_prefix.mpr hpre) h
          · exact hinf2
        have hfuel2 : n ≥ rest.length := by
          simp only [List.length_cons] at hfuel
          omega
        have hlen := ih rest hinf2 hfuel2
        cases hg : goSplitF sep n rest with
        | nil => exact absurd hg (goSplitF_ne_nil sep n rest)
        | cons hd tl =>
          rw [hg] at hlen
          simp only [List.length_cons] at hlen ⊢
          omega

theorem structMappingSplitCol_isSome (col : String)
    (h : aliasPfx.toList.isPrefixOf col.toList = true →
      aliasSep.toList <:+: col.toList.drop aliasPfx.length) :
    (structMappingSplitCol col).isSome = true := by
  rw [structMappingSplitCol]
  by_cases hp : aliasPfx.toList.isPrefixOf col.toList = true
  · rw [if_pos hp]
    have hinf := h hp
    have hsep : aliasSep.toList ≠ [] := by decide
    have hlen := goSplitF_length_ge_two aliasSep.toList hsep
      (col.toList.drop aliasPfx.length).length (col.toList.drop aliasPfx.length)
      hinf (Nat.le_refl _)
    rw [show goSplit aliasSep.toList (col.toList.drop aliasPfx.length) =
      goSplitF aliasSep.toList (col.toList.drop aliasPfx.length).length
        (col.toList.drop aliasPfx.length) from rfl] at *
    cases hg : goSplitF aliasSep.toList (col.toList.drop aliasPfx.length).length
        (col.toList.drop aliasPfx.length) with
    | nil => rw [hg] at hlen; simp at hlen
    | cons p0 tl =>
      cases tl with
      | nil => rw [hg] at hlen; simp at hlen
      | cons p1 tl2 => simp [hg]
  · rw [if_neg hp]
    simp

theorem structMappingGo_no_panic (entities : List ReflectStruct)
    (fields : List RecordBinding) :
    ∀ columns : List String,
      (∀ c ∈ columns, aliasPfx.toList.isPrefixOf c.toList = true →
        aliasSep.toList <:+: c.toList.drop aliasPfx.length) →
      ∀ m, structMappingGo columns entities fields ≠ .panic m := by
  intro columns
  induction columns with
  | nil => intro _ m; simp [structMappingGo]
  | cons col rest ih =>
    intro h m
    have hcol := structMappingSplitCol_isSome col (h col (List.mem_cons_self col rest))
    rw [structMappingGo]
    cases hs : structMappingSplitCol col with
    | none => rw [hs] at hcol; simp at hcol
    | some pr =>
      cases pr with
      | mk pfx name =>
        cases hr : routeColumn entities fields pfx name with
        | none => simp [hr]
        | some target =>
          have hrest : ∀ c ∈ rest, aliasPfx.toList.isPrefixOf c.toList = true →
              aliasSep.toList <:+: c.toList.drop aliasPfx.length :=
            fun c hc => h c (List.mem_cons_of_mem col hc)
          cases hg : structMappingGo rest entities fields with
          | panic m2 => exact absurd hg (ih hrest m2)
          | err e => simp [hr, hg]
          | ok targets => simp [hr, hg]
theorem parseRecordsTableCheck_ok (errTable : Option RPErr)
    (next : Except String (List RecordBinding)) (l : List RecordBinding)
    (h : parseRecordsTableCheck errTable next = .ok l) : next = .ok l := by
  cases errTable with
  | none => exact h
  | some e =>
    rw [parseRecordsTableCheck] at h
    by_cases he : e ≠ RPErr.tooMany
    · rw [if_pos he] at h; simp at h
    · rw [if_neg he] at h; exact h

theorem parseRecordsAfterEntity_ok (stmt : String) (i : Nat)
    (next : Except String (List RecordBinding)) (l : List RecordBinding)
    (h : parseRecordsAfterEntity stmt i next = .ok l) : next = .ok l := by
  rw [parseRecordsAfterEntity] at h
  cases hsel : selectorScan stmt.toList i "" 0 with
  | error e => rw [hsel] at h; simp at h
  | ok pr =>
    rw [hsel] at h
    cases pr with
    | mk selector off =>
      dsimp only at h
      by_cases hs : toLowerGo (trimGo selector) ≠ "as"
      · rw [if_pos hs] at h; simp at h
      · rw [if_neg hs] at h
        exact parseRecordsTableCheck_ok _ next l h

theorem parseRecordsEntityCheck_ok (errEntity : Option RPErr) (stmt : String)
    (i : Nat) (next : Except String (List RecordBinding)) (l : List RecordBinding)
    (h : parseRecordsEntityCheck errEntity stmt i next = .ok l) : next = .ok l := by
  cases errEntity with
  | none => exact parseRecordsAfterEntity_ok stmt i next l h
  | some e =>
    rw [parseRecordsEntityCheck] at h
    by_cases he : e ≠ RPErr.tooMany
    · rw [if_pos he] at h; simp at h
    · rw [if_neg he] at h
      exact parseRecordsAfterEntity_ok stmt i next l h

theorem parseRecordsLoop_acc :
    ∀ (fuel : Nat) (stmt : String) (i : Nat) (records l : List RecordBinding),
      parseRecordsLoop stmt fuel i records = .ok l → l = records := by
  intro fuel
  induction fuel with
  | zero =>
    intro stmt i records l h
    exact absurd
      (show (Except.error "fuel exhausted" : Except String (List RecordBinding)) = .ok l from h)
      (fun hc => Except.noConfusion hc)
  | succ n ih =>
    intro stmt i records l h
    replace h :
        (if i < stmt.length then
          if stmt.toList.getD i '\x00' ≠ '&' then Except.ok records
          else
            parseRecordsEntityCheck ((parseRecordPath stmt (i + 1)).2.2) stmt i
              (parseRecordsLoop stmt n (i + 1) records)
        else Except.ok records) = Except.ok l := h
    by_cases hi : i < stmt.length
    · rw [if_pos hi] at h
      by_cases hr : stmt.toList.getD i '\x00' ≠ '&'
      · rw [if_pos hr] at h
        exact (Except.ok.inj h).symm
      · rw [if_neg hr] at h
        exact ih stmt (i + 1) records l (parseRecordsEntityCheck_ok _ stmt i _ l h)
    · rw [if_neg hi] at h
      exact (Except.ok.inj h).symm

/-! ### Claim theorems -/

set_option maxRecDepth 4000 in
/-- C1 (code bug).  The spec and the repository's own tests
(`TestQueryJoinWithMultiplePrefixStructs`) state that compiling
`SELECT {people.* INTO Person}, {location.* INTO Location} FROM ...` with
`Person = {name, age}` and `Location = {city}` emits the projection
`people.age, people.name, location.city`.  The code does not: its record
scanner looks for `&` rather than `{` and never produces a binding, so
`compileStatement` returns the statement unchanged with no bindings (first
conjunct).  The second conjunct shows the expansion machinery downstream of
the scanner does produce exactly the documented projection when handed the
record bindings the `{ ... INTO ... }` syntax describes: the failure is
localised in `parseRecords`/`indexOfRecordArgs`. -/
theorem claim_C1_record_expansion :
    compileStatement stmtJoin [personR, locationR] = .ok (stmtJoin, [])
    ∧ expandRecords stmtJoin [rbPeople, rbLocation] [personR, locationR]
        (fieldIntersections [personR, locationR]) = .ok stmtJoinExpanded :=
  ⟨rfl, rfl⟩

/-- C2 (confirmed).  For `SELECT :name FROM @table WHERE $id=1 AND ?42=2 AND
?=3;` the scanner returns exactly the four bindings `('?',"42")`, `('$',"id")`,
`(':',"name")`, `('@',"table")` in that order, and for every statement the
returned binding list is sorted lexicographically by name.  (Stability across
repeated calls is determinism of the pure function.) -/
theorem claim_C2_name_scanner :
    parseNames "SELECT :name FROM @table WHERE $id=1 AND ?42=2 AND ?=3;" 0 =
      .ok [⟨'?', "42"⟩, ⟨'$', "id"⟩, ⟨':', "name"⟩, ⟨'@', "table"⟩]
    ∧ ∀ (stmt : String) (offset : Nat) (l : List NameBinding),
        parseNames stmt offset = .ok l → l.Pairwise (fun a b => nameLe a b = true) := by
  constructor
  · rfl
  · intro stmt offset l h
    rw [parseNames] at h
    cases hl : parseNamesLoop stmt.toList (stmt.length + 1) offset with
    | error e => rw [hl] at h; simp at h
    | ok names =>
      rw [hl] at h
      have : l = insertionSortGo nameLe names := (Except.ok.inj h).symm
      rw [this]
      exact pairwise_insertionSortGo nameLe nameLe_total nameLe_trans names

/-- Witness for C2: the sortedness statement applied to the concrete
statement of the claim. -/
theorem claim_C2_name_scanner_witness :
    List.Pairwise (fun a b => nameLe a b = true)
      [(⟨'?', "42"⟩ : NameBinding), ⟨'$', "id"⟩, ⟨':', "name"⟩, ⟨'@', "table"⟩] :=
  claim_C2_name_scanner.2 "SELECT :name FROM @table WHERE $id=1 AND ?42=2 AND ?=3;" 0 _ rfl

/-- C3 (code bug).  The spec requires destinations to be homogeneous in kind,
and the source comments claim a guard in `reflectValues` enforces it; but the
guard reads `i > 1`, so the kinds of the first two destinations are never
compared.  A call with exactly two destinations of differing kinds (a struct
and an int) sails through `reflectValues` without an error (first conjunct),
after which `ForOne` panics on its `ReflectStruct` type assertion instead of
returning an error (second conjunct). -/
theorem claim_C3_homogeneity_guard :
    reflectValues [GoType.ptr (GoType.structT "Person" [⟨"Name", some "name"⟩]),
        GoType.ptr GoType.intT] =
      .ok [.structI ⟨"Person", [("name", ⟨"Name", ⟨"name", false⟩⟩)]⟩, .value GoType.intT]
    ∧ forOne [GoType.ptr (GoType.structT "Person" [⟨"Name", some "name"⟩]),
        GoType.ptr GoType.intT] =
      .panic "interface conversion: ReflectInfo is not ReflectStruct" :=
  ⟨rfl, rfl⟩

/-- C4 (code bug).  The spec and the test `TestQueryWithStructUsesCache`
expect that executing the same SQL twice compiles once, with the second call
served from the statement cache.  In the code, `compileStatement` never
changes the text (claim C10), so `structScan`'s guarded insert never fires:
the first call compiles (flag `true`) and leaves the cache empty, hence the
second identical call compiles again and the test's `stmtCache.Get`
assertion fails (first two conjuncts).  Moreover `sliceStructScan` never
consults the cache at all: it recompiles even when the cache already holds
the statement, and leaves the cache untouched (third conjunct). -/
theorem claim_C4_statement_cache :
    structScanStep [] stmtCacheTest [personR] = .ok (stmtCacheTest, [], true)
    ∧ cacheGet ([] : StmtCache) stmtCacheTest = none
    ∧ sliceStructScanStep [(stmtCacheTest, ⟨stmtCacheTestExpanded, []⟩)] stmtCacheTest [personR] =
        .ok (stmtCacheTest, [(stmtCacheTest, ⟨stmtCacheTestExpanded, []⟩)], true) :=
  ⟨rfl, rfl, rfl⟩

/-- Counterexample for C5: routing a returned column name can panic.  A
column named `_pfx_x` begins with the alias marker but carries no `_sfx_`
separator, so `structMapping`'s split accesses `parts[1]` out of range — a
panic outside the single `zeroScanType` exception the claim allows. -/
theorem claim_C5_counterexample :
    structMappingGo ["_pfx_x"] [personR] [] = .panic "runtime error: index out of range" :=
  rfl

/-- C5 (corrected).  Routing a returned column name never panics provided
every column name that begins with the alias marker `_pfx_` also contains
the separator `_sfx_` (first conjunct); reflecting a destination panics
exactly when the destination is not a pointer — the `mustBe` assertion in
`ReflectCache.Reflect`, a second panic site the claim omits (second and
third conjuncts).  The mixed-kind cast panic in `ForOne` is covered under
claim C3. -/
theorem claim_C5_panic_routing :
    (∀ (columns : List String) (entities : List ReflectStruct) (fields : List RecordBinding),
      (∀ c ∈ columns, aliasPfx.toList.isPrefixOf c.toList = true →
        aliasSep.toList <:+: c.toList.drop aliasPfx.length) →
      ∀ m, structMappingGo columns entities fields ≠ .panic m)
    ∧ (∀ (u : GoType) (m : String), cacheReflect (GoType.ptr u) ≠ .panic m)
    ∧ (∀ t : GoType, (∀ u, t ≠ GoType.ptr u) → cacheReflect t = .panic "reflect.ValueError") := by
  refine ⟨?_, ?_, ?_⟩
  · intro columns entities fields h m
    exact structMappingGo_no_panic entities fields columns h m
  · intro u m
    rw [cacheReflect]
    cases hr : reflectGo u with
    | error e => simp
    | ok info => simp
  · intro t ht
    cases t with
    | ptr u => exact absurd rfl (ht u)
    | structT n fs => rfl
    | mapT => rfl
    | sliceT e => rfl
    | intT => rfl
    | stringT => rfl
    | boolT => rfl

/-- Witness for C5: routing the well-formed columns of the overlapping-field
test does not panic, and reflecting a bare int (not a pointer) does. -/
theorem claim_C5_panic_routing_witness :
    (structMappingGo ["_pfx_test_sfx_name", "age"] [personR]
        [⟨"Person", "test", ["*"], true, 7, 27⟩] ≠ .panic "runtime error: index out of range")
    ∧ cacheReflect GoType.intT = .panic "reflect.ValueError" :=
  ⟨claim_C5_panic_routing.1 ["_pfx_test_sfx_name", "age"] [personR]
      [⟨"Person", "test", ["*"], true, 7, 27⟩] (by decide) "runtime error: index out of range",
   claim_C5_panic_routing.2.2 GoType.intT (fun u h => GoType.noConfusion h)⟩

/-- Counterexample for C6: a field whose `db` tag is absent does not yield a
descriptor entry keyed by the lower-cased field name — `StructTag.Get`
collapses an absent tag to the empty string, and `parseTag` rejects the
empty string, so reflection fails where the claim says it succeeds. -/
theorem claim_C6_counterexample :
    reflectGo (GoType.structT "Person" [⟨"Name", none⟩]) = .error "unexpected empty tag" :=
  rfl

set_option maxRecDepth 4000 in
set_option maxHeartbeats 1000000 in
/-- C6 (corrected).  An absent `db` tag is an error, indistinguishable from
an empty tag; the lower-cased field-name key arises exactly when the tag is
non-empty with an empty name part (e.g. `,omitempty`); a non-empty tag name
is used as the key; a two-option tag whose second option is not `omitempty`
is an error; but a tag with three or more options is accepted with the zero
tag value (empty name, no omitempty), contrary to the claim's "anything
other than omitempty is an error". -/
theorem claim_C6_tag_rules : ∀ fname : String,
    reflectGo (GoType.structT "S" [⟨fname, none⟩]) = .error "unexpected empty tag"
    ∧ reflectGo (GoType.structT "S" [⟨fname, some ""⟩]) = .error "unexpected empty tag"
    ∧ reflectGo (GoType.structT "S" [⟨fname, some ",omitempty"⟩]) =
        .ok (.structI ⟨"S", [(toLowerGo fname, ⟨fname, ⟨"", true⟩⟩)]⟩)
    ∧ reflectGo (GoType.structT "S" [⟨fname, some "col"⟩]) =
        .ok (.structI ⟨"S", [("col", ⟨fname, ⟨"col", false⟩⟩)]⟩)
    ∧ parseTag "name,foo" = .error "unexpected tag value foo"
    ∧ parseTag "name,omitempty" = .ok ⟨"name", true⟩
    ∧ parseTag "a,b,c" = .ok ⟨"", false⟩ :=
  fun _fname => ⟨rfl, rfl, rfl, rfl, rfl, rfl, rfl⟩

/-- Witness for C6 at the concrete field name `Name`. -/
theorem claim_C6_tag_rules_witness :
    reflectGo (GoType.structT "S" [⟨"Name", some ",omitempty"⟩]) =
      .ok (.structI ⟨"S", [(toLowerGo "Name", ⟨"Name", ⟨"", true⟩⟩)]⟩) :=
  (claim_C6_tag_rules "Name").2.2.1

/-- Counterexample for C7: a statement ending in a lone `?` does yield a
binding for it — the end-of-input guard `i+1 < len(stmt)` fails, the
special case is skipped, and a binding with prefix `?` and empty name is
emitted, where the claim says no binding is produced. -/
theorem claim_C7_counterexample :
    parseNames "SELECT ?" 0 = .ok [⟨'?', ""⟩] ∧ parseNames "SELECT ?" 0 ≠ .ok [] := by
  refine ⟨rfl, fun h => ?_⟩
  have h2 : (Except.ok [(⟨'?', ""⟩ : NameBinding)] : Except String (List NameBinding)) =
      Except.ok [] :=
    (rfl : parseNames "SELECT ?" 0 = Except.ok [(⟨'?', ""⟩ : NameBinding)]).symm.trans h
  simp at h2

/-- C7 (corrected).  Only the `?` prefix is special-cased, and only when a
terminator character follows within the statement: `SELECT ?=3;` emits no
binding for the bare `?`; a statement ending in a lone `?` emits `('?',"")`;
and the `:`/`@`/`$` prefixes followed by a terminator, or any prefix at end
of input, emit a binding with an empty name rather than none. -/
theorem claim_C7_bare_placeholders :
    parseNames "SELECT ?=3;" 0 = .ok []
    ∧ parseNames "SELECT ?" 0 = .ok [⟨'?', ""⟩]
    ∧ parseNames "SELECT : FROM t;" 0 = .ok [⟨':', ""⟩]
    ∧ parseNames "@" 0 = .ok [⟨'@', ""⟩] :=
  ⟨rfl, rfl, rfl, rfl⟩

set_option maxRecDepth 4000 in
set_option maxHeartbeats 4000000 in
/-- C8 (confirmed).  `Person[0].name[1].head` compiles to the atoms
`[Ident "Person", Int 0, Ident "name", Int 1, Ident "head"]` (consuming all
22 bytes), and `Person.*.name[1] AS` compiles to the same atoms as
`Person.*.name[1]`, the parser stopping at the whitespace separator before
`AS` (16 bytes consumed). -/
theorem claim_C8_path_flattening :
    parseRecordPath "Person[0].name[1].head" 0 =
      ([.ident "Person", .int 0, .ident "name", .int 1, .ident "head"], 22, none)
    ∧ parseRecordPath "Person.*.name[1] AS" 0 =
        ([.ident "Person", .ident "*", .ident "name", .int 1], 16, none)
    ∧ (parseRecordPath "Person.*.name[1] AS" 0).1 = (parseRecordPath "Person.*.name[1]" 0).1 := by
  have h2 : parseRecordPath "Person.*.name[1] AS" 0 =
      ([.ident "Person", .ident "*", .ident "name", .int 1], 16, none) := rfl
  have h3 : parseRecordPath "Person.*.name[1]" 0 =
      ([.ident "Person", .ident "*", .ident "name", .int 1], 16, none) := rfl
  exact ⟨rfl, h2, by rw [h2, h3]⟩

/-- C9 (confirmed).  When reflecting any destination fails inside `ForOne`
or `ForMany`, both return the zero `Query` together with a nil error: the
reflection error is discarded (`return Query{}, nil`). -/
theorem claim_C9_error_discarded :
    ∀ (values : List GoType) (e : String),
      reflectValues values = .err e →
      forOne values = .ok (emptyQuery, none) ∧ forMany values = .ok (emptyQuery, none) := by
  intro values e h
  constructor
  · rw [forOne, h]
  · cases values with
    | nil =>
      rw [reflectValues] at h
      exact absurd
        (show (Outcome.ok ([] : List ReflectInfo)) = .err e from h)
        (fun hc => Outcome.noConfusion hc)
    | cons v rest =>
      rw [forMany]
      rw [if_neg (by simp)]
      rw [h]

/-- Witness for C9: a destination with an empty `db` tag makes reflection
fail, and both entry points return the zero query and no error. -/
theorem claim_C9_error_discarded_witness :
    forOne [GoType.ptr (GoType.structT "S" [⟨"Name", none⟩])] = .ok (emptyQuery, none)
    ∧ forMany [GoType.ptr (GoType.structT "S" [⟨"Name", none⟩])] = .ok (emptyQuery, none) :=
  claim_C9_error_discarded [GoType.ptr (GoType.structT "S" [⟨"Name", none⟩])]
    "reflect: unexpected empty tag" rfl

/-- C10 (confirmed).  Whenever `parseRecords` returns without error the
returned record-binding list is empty (no element is ever appended), so
`compileStatement` never rewrites any statement and always returns an empty
binding vector on success. -/
theorem claim_C10_no_bindings :
    (∀ (stmt : String) (offset : Nat) (l : List RecordBinding),
      parseRecords stmt offset = .ok l → l = [])
    ∧ (∀ (stmt : String) (entities : List ReflectStruct) (out : String × List RecordBinding),
      compileStatement stmt entities = .ok out → out = (stmt, [])) := by
  constructor
  · intro stmt offset l h
    exact parseRecordsLoop_acc (stmt.length + 1) stmt offset [] l h
  · intro stmt entities out h
    rw [compileStatement] at h
    cases hio : indexOfRecordArgs stmt with
    | none =>
      rw [hio] at h
      exact (Except.ok.inj h).symm
    | some offset =>
      rw [hio] at h
      dsimp only at h
      cases hpr : parseRecords stmt offset with
      | error e => rw [hpr] at h; simp at h
      | ok fields =>
        rw [hpr] at h
        have hf : fields = [] := parseRecordsLoop_acc (stmt.length + 1) stmt offset [] fields hpr
        subst hf
        dsimp only [expandRecords, expandRecordsLoop] at h
        exact (Except.ok.inj h).symm

/-- Witness for C10: a statement that reaches the `&` branch and succeeds
(`xt.c AS &Person`) yields an empty binding list, and `compileStatement`
passes the statement through unchanged. -/
theorem claim_C10_no_bindings_witness :
    ([] : List RecordBinding) = []
    ∧ ("xt.c AS &Person", ([] : List RecordBinding)) = ("xt.c AS &Person", []) :=
  ⟨claim_C10_no_bindings.1 "xt.c AS &Person" 8 [] rfl,
   claim_C10_no_bindings.2 "xt.c AS &Person" [] ("xt.c AS &Person", []) rfl⟩

end SQLair
